import Mathlib

/-!
Shallow embedding of src/neuroanalysis/util/mies_nwb_parsing.py.

The file models the two core procedures of the repository:

* parse_lab_notebook (lines 6-152): classification of numeric lab-notebook
  rows into sweep records and test-pulse records, the in-place merge
  policies, the per-sweep finalization broadcasts, and the textual overlay
  pass.

* parse_stim_wave_note (lines 164-194): the decoder for the stimulus wave
  note mini-language.

Numeric cells are modelled as Option Rat with none standing for NaN (the
only thing the source ever does with the float values is test isnan and
copy them, so a tagged missing marker is a faithful model).  Textual cells
are Lean Strings with the empty string as the missing marker, as in the
source.  Fallible paths (StopIteration from next(), ValueError from int()
and float(), KeyError from dict indexing) are modelled with Except.
-/

set_option maxHeartbeats 1000000
set_option synthInstance.maxSize 1000
set_option synthInstance.maxHeartbeats 400000

deriving instance DecidableEq for Except

/-! ### Models of the Python string and number primitives used by the source -/

/-- Helper for pyStartsWith: does the first list occur at the head of the second. -/
def strStartsAux : List Char → List Char → Bool
  | [], _ => true
  | _ :: _, [] => false
  | p :: ps, c :: cs => p == c && strStartsAux ps cs

/-- Model of Python str.startswith. -/
def pyStartsWith (s pre : String) : Bool :=
  strStartsAux pre.data s.data

/-- Helper for pySplitChar: split a character list at every occurrence of c. -/
def splitCharAux (c : Char) : List Char → List Char → List (List Char)
  | [], acc => [acc.reverse]
  | x :: xs, acc =>
    if x == c then acc.reverse :: splitCharAux c xs []
    else splitCharAux c xs (x :: acc)

/-- Model of Python str.split with a single-character separator. -/
def pySplitChar (c : Char) (s : String) : List String :=
  (splitCharAux c s.data []).map String.mk

/-- Helper for pySplitOn: fuel-indexed left-to-right scan for the separator. -/
def splitSeqAux (sep : List Char) : Nat → List Char → List Char → List (List Char)
  | 0, l, acc => [acc.reverse ++ l]
  | _ + 1, [], acc => [acc.reverse]
  | fuel + 1, x :: xs, acc =>
    if strStartsAux sep (x :: xs) then
      acc.reverse :: splitSeqAux sep fuel (List.drop sep.length (x :: xs)) []
    else
      splitSeqAux sep fuel xs (x :: acc)

/-- Model of Python str.split with a multi-character separator (the source only
uses nonempty separators; Python raises on an empty one, which we never hit). -/
def pySplitOn (sep : String) (s : String) : List String :=
  if sep.data.isEmpty then [s]
  else (splitSeqAux sep.data (s.data.length + 1) s.data []).map String.mk

/-- Model of Python str.rstrip applied with the single character argument semicolon. -/
def pyRstripSemi (s : String) : String :=
  String.mk (s.data.reverse.dropWhile (fun c => c == ';')).reverse

/-- Model of the Python membership test of a character in a string. -/
def pyContainsChar (s : String) (c : Char) : Bool :=
  s.data.contains c

/-- Whitespace characters stripped by Python int() and float(). -/
def isPyWs (c : Char) : Bool :=
  c == ' ' || c == '\t' || c == '\n' || c == '\r'

/-- Strip leading and trailing whitespace from a character list. -/
def stripWs (l : List Char) : List Char :=
  ((l.dropWhile isPyWs).reverse.dropWhile isPyWs).reverse

/-- Value of a single decimal digit, none for a non-digit. -/
def digitVal (c : Char) : Option Nat :=
  if '0' ≤ c ∧ c ≤ '9' then some (c.toNat - '0'.toNat) else none

/-- Accumulate the value of a digit string; none as soon as a non-digit appears. -/
def digitsValAux (acc : Nat) : List Char → Option Nat
  | [] => some acc
  | c :: cs =>
    match digitVal c with
    | none => none
    | some d => digitsValAux (acc * 10 + d) cs

/-- Value of a nonempty all-digit string, none otherwise. -/
def digitsVal (l : List Char) : Option Nat :=
  if l.isEmpty then none else digitsValAux 0 l

/-- Model of Python int applied to a string: optional sign and a nonempty digit
run, with surrounding whitespace allowed; none models ValueError. -/
def pyInt (s : String) : Option Int :=
  match stripWs s.data with
  | '-' :: rest => (digitsVal rest).map (fun n => -(n : Int))
  | '+' :: rest => (digitsVal rest).map (fun n => (n : Int))
  | l => (digitsVal l).map (fun n => (n : Int))

/-- Value of an unsigned decimal literal with an optional fractional part.
Both sides of the dot may be empty but not both, as in Python. -/
def decimalVal (l : List Char) : Option ℚ :=
  let ip := l.takeWhile (fun c => c ≠ '.')
  match l.dropWhile (fun c => c ≠ '.') with
  | [] => (digitsVal ip).map (fun n => (n : ℚ))
  | _ :: fp =>
    if ip.isEmpty && fp.isEmpty then none
    else if fp.contains '.' then none
    else
      match digitsValAux 0 ip, digitsValAux 0 fp with
      | some a, some b => some ((a : ℚ) + (b : ℚ) / ((10 : ℚ) ^ fp.length))
      | _, _ => none

/-- Model of Python float applied to a string, restricted to the plain decimal
literals a wave note can contain; none models ValueError. -/
def pyFloat (s : String) : Option ℚ :=
  match stripWs s.data with
  | '-' :: rest => (decimalVal rest).map Neg.neg
  | '+' :: rest => decimalVal rest
  | l => decimalVal l

/-- Truncation toward zero, the conversion Python int() performs on a float. -/
def ratTrunc (q : ℚ) : Int :=
  Int.tdiv q.num (q.den : Int)

/-! ### The wave-note decoder, parse_stim_wave_note (source lines 164-194) -/

/-- Values stored in a finalized channel metadata mapping: a float, a string,
or the explicit absence marker that replaces NaN (Python None). -/
inductive MetaVal where
  | num (v : ℚ)
  | str (s : String)
  | null
deriving DecidableEq, Repr

/-- A channel metadata mapping: an insertion-ordered association list, the
model of the OrderedDict built per channel by parse_lab_notebook. -/
abbrev ChannelMeta := List (String × MetaVal)

/-- Dictionary lookup in a channel metadata mapping. -/
def lookupMeta (cm : ChannelMeta) (k : String) : Option MetaVal :=
  (cm.find? (fun p => p.1 == k)).map (fun p => p.2)

/-- Key membership test, the model of the Python expression k in dict. -/
def containsKey (cm : ChannelMeta) (k : String) : Bool :=
  cm.any (fun p => p.1 == k)

/-- Model of Python int() applied to a metadata value (source line 179). -/
def metaToInt : MetaVal → Except String Int
  | MetaVal.num v => Except.ok (ratTrunc v)
  | MetaVal.str s =>
    match pyInt s with
    | some n => Except.ok n
    | none => Except.error "ValueError"
  | MetaVal.null => Except.error "TypeError"

/-- Extraction of the wave-note string (source line 180); a non-string value
would make the subsequent split call fail in Python. -/
def metaToStr : MetaVal → Except String String
  | MetaVal.str s => Except.ok s
  | _ => Except.error "AttributeError"

/-- One decoded epoch: an insertion-ordered mapping built by Python dict(). -/
abbrev EpochMap := List (String × String)

/-- Insertion into a Python dict: a later value for an existing key replaces it
in place, a new key is appended at the end. -/
def dictInsert (d : EpochMap) (k v : String) : EpochMap :=
  if d.any (fun p => p.1 == k) then
    d.map (fun p => if p.1 == k then (k, v) else p)
  else d ++ [(k, v)]

/-- Model of Python dict applied to a list of key-value sequences: every
element must have length exactly two, otherwise dict raises ValueError. -/
def pyDictAux (acc : EpochMap) : List (List String) → Except String EpochMap
  | [] => Except.ok acc
  | [k, v] :: rest => pyDictAux (dictInsert acc k v) rest
  | _ :: _ => Except.error "ValueError"

/-- Model of Python dict over a list of fragments already split on the
three-character separator space-equals-space. -/
def pyDict (ps : List (List String)) : Except String EpochMap :=
  pyDictAux [] ps

/-- The lines of the wave note (source line 181). -/
def noteLines (note : String) : List String :=
  pySplitChar '\n' note

/-- The lines selected by the version scan (source line 182). -/
def versionLinesOf (note : String) : List String :=
  (noteLines note).filter (fun l => pyStartsWith l "Version =")

/-- Version extraction (source lines 182-186): the first matching line has its
trailing semicolons stripped, is split on space-equals-space, and element one
is parsed as a float; no matching line means version zero. -/
def parseVersion (note : String) : Except String ℚ :=
  match versionLinesOf note with
  | [] => Except.ok 0
  | v :: _ =>
    match pySplitOn " = " (pyRstripSemi v) with
    | _ :: x :: _ =>
      match pyFloat x with
      | some q => Except.ok q
      | none => Except.error "ValueError"
    | _ => Except.error "IndexError"

/-- The literal line marker selecting the epoch lines for a sweep count
(source line 189). -/
def sweepMarker (sweepCount : Int) : String :=
  "Sweep = " ++ toString sweepCount ++ ";"

/-- The lines of the note describing the epochs of the given sweep count
(source lines 188-190). -/
def epochLines (sweepCount : Int) (note : String) : List String :=
  (noteLines note).filter (fun l => pyStartsWith l (sweepMarker sweepCount))

/-- The semicolon-delimited fragments of one line (source line 191). -/
def lineFragments (line : String) : List String :=
  pySplitChar ';' line

/-- One epoch from one selected line (source line 191): fragments without an
equals sign are dropped, the rest are split on space-equals-space and fed to
dict, which fails unless every piece has exactly two parts. -/
def buildEpoch (line : String) : Except String EpochMap :=
  pyDict (((lineFragments line).filter (fun p => pyContainsChar p '=')).map
    (fun p => pySplitOn " = " p))

/-- The epoch loop of parse_stim_wave_note (source lines 187-193): selected
lines are decoded in order, appending each epoch, with the first failure
propagating. -/
def epochsFold : List String → List EpochMap → Except String (List EpochMap)
  | [] => fun acc => Except.ok acc
  | l :: rest => fun acc =>
    match buildEpoch l with
    | Except.error e => Except.error e
    | Except.ok ep => epochsFold rest (acc ++ [ep])

/-- The epochs of the wave note for a sweep count. -/
def epochsOf (sweepCount : Int) (note : String) : Except String (List EpochMap) :=
  epochsFold (epochLines sweepCount note) []

/-- Body of parse_stim_wave_note after the two field reads (source lines
181-194): version extraction followed by the epoch loop in line order. -/
def stimWaveNoteFromParts (sweepCount : Int) (note : String) :
    Except String (ℚ × List EpochMap) :=
  match parseVersion note with
  | Except.error e => Except.error e
  | Except.ok ver =>
    match epochsOf sweepCount note with
    | Except.error e => Except.error e
    | Except.ok eps => Except.ok (ver, eps)

/-- Model of parse_stim_wave_note (source lines 164-194): reads the two fields
from the recording notebook mapping and decodes the wave note. -/
def parse_stim_wave_note (rec_notebook : ChannelMeta) :
    Except String (ℚ × List EpochMap) :=
  match lookupMeta rec_notebook "Set Sweep Count" with
  | none => Except.error "KeyError"
  | some v =>
    match metaToInt v with
    | Except.error e => Except.error e
    | Except.ok sweepCount =>
      match lookupMeta rec_notebook "Stim Wave Note" with
      | none => Except.error "KeyError"
      | some w =>
        match metaToStr w with
        | Except.error e => Except.error e
        | Except.ok note => stimWaveNoteFromParts sweepCount note

/-! ### The notebook reconciler, parse_lab_notebook (source lines 6-152) -/

/-- A numeric cell: none models NaN, the missing marker of the numeric table. -/
abbrev Cell := Option ℚ

/-- One numeric notebook row: a fields-by-channels grid (source rec = nb i). -/
abbrev NumRec := List (List Cell)

/-- Cell access rec i j with the missing marker as the out-of-range default
(the source only indexes in range on well-shaped tables). -/
def cellAt (r : NumRec) (i j : Nat) : Cell :=
  (r.getD i []).getD j none

/-- The cell-wise merge policy of the source (lines 71-72 and 81-82): the new
value wins whenever it is non-missing, otherwise the old value is kept. -/
def mergeCell (old new : Cell) : Cell :=
  match new with
  | none => old
  | some v => some v

/-- Grid-wise merge, the model of mask = isnan negated on the new record
followed by old mask-indexed assignment from new. -/
def mergeRec (r1 r2 : NumRec) : NumRec :=
  List.zipWith (List.zipWith mergeCell) r1 r2

/-- Classification outcome of one numeric row (source lines 44-53). -/
inductive RowClass where
  | sweep
  | tp
  | skip
deriving DecidableEq, Repr

/-- Row classification (source lines 49-53): with an EntrySourceType field
present and non-NaN in channel zero, value zero marks a sweep record and any
other value a test-pulse record; otherwise the row is left unclassified (the
legacy fallback of lines 54-65 is commented out in the source). -/
def classify (estIdx : Option Nat) (r : NumRec) : RowClass :=
  match estIdx with
  | none => RowClass.skip
  | some k =>
    match cellAt r k 0 with
    | none => RowClass.skip
    | some v => if v = 0 then RowClass.sweep else RowClass.tp

/-- The ordered sweep accumulator map (source sweep_entries). -/
abbrev SweepAcc := List (Int × NumRec)

/-- Accumulator update for a sweep record (source lines 76-82): seed on first
sight, otherwise merge the new row in with non-missing-wins. -/
def updateAssoc (acc : SweepAcc) (id : Int) (r : NumRec) : SweepAcc :=
  if acc.any (fun p => p.1 == id) then
    acc.map (fun p => if p.1 == id then (p.1, mergeRec p.2 r) else p)
  else acc ++ [(id, r)]

/-- Pass 1 of parse_lab_notebook (source lines 39-82): the single scan over the
numeric rows.  A test-pulse record consumes the following row as well
(StopIteration if there is none); a sweep record folds into its accumulator
(ValueError if the sweep index is NaN, as Python int raises on nan). -/
def scanRows (estIdx : Option Nat) :
    List NumRec → SweepAcc → List NumRec → Except String (SweepAcc × List NumRec)
  | [] => fun acc tps => Except.ok (acc, tps)
  | r :: rest => fun acc tps =>
    match classify estIdx r with
    | RowClass.skip => scanRows estIdx rest acc tps
    | RowClass.sweep =>
      match cellAt r 0 0 with
      | none => Except.error "ValueError"
      | some v => scanRows estIdx rest (updateAssoc acc (ratTrunc v) r) tps
    | RowClass.tp =>
      match rest with
      | [] => Except.error "StopIteration"
      | r2 :: rest2 => scanRows estIdx rest2 acc (tps ++ [mergeRec r r2])

/-- Structural map with the element index passed to the function. -/
def mapWithIdx {α β : Type} (f : Nat → α → β) : Nat → List α → List β
  | _, [] => []
  | n, a :: as => f n a :: mapWithIdx f (n + 1) as

/-- Broadcast of channel zero across a field row (source entry i assigned from
entry i 0). -/
def broadcastFirst (row : List Cell) : List Cell :=
  row.map (fun _ => row.getD 0 none)

/-- Global-column broadcast (source lines 86-87): a field whose column eight is
non-missing has that value written into every channel column. -/
def globalStep (entry : NumRec) : NumRec :=
  entry.map (fun row =>
    match row.getD 8 none with
    | some g => row.map (fun _ => some g)
    | none => row)

/-- Header broadcast (source line 90): the first four fields take their channel
zero value on every channel. -/
def headerStep (entry : NumRec) : NumRec :=
  mapWithIdx (fun i row => if i < 4 then broadcastFirst row else row) 0 entry

/-- Async AD broadcast (source lines 95-98): every field whose name starts with
the Async AD prefix string takes its channel zero value on every channel. -/
def asyncStep (keys : List String) (entry : NumRec) : NumRec :=
  mapWithIdx
    (fun i row =>
      if pyStartsWith (keys.getD i "") "Async AD " then broadcastFirst row else row)
    0 entry

/-- The three broadcast steps of Pass 2 in source order. -/
def finalizeGrid (keys : List String) (entry : NumRec) : NumRec :=
  asyncStep keys (headerStep (globalStep entry))

/-- Conversion of one channel column into an ordered metadata mapping (source
line 104): every numeric key appears, NaN becoming the explicit null marker. -/
def toChannelMeta (keys : List String) (e : NumRec) (ch : Nat) : ChannelMeta :=
  mapWithIdx
    (fun j k =>
      (k, match cellAt e j ch with
          | none => MetaVal.null
          | some v => MetaVal.num v))
    0 keys

/-- Number of channel columns of a finalized grid (source entry shape one). -/
def numChannels (e : NumRec) : Nat :=
  (e.headD []).length

/-- Pass 2 finalization of one accumulator (source lines 84-105): broadcasts
followed by the conversion to one mapping per channel. -/
def finalizeEntry (keys : List String) (entry : NumRec) : List ChannelMeta :=
  let e := finalizeGrid keys entry
  (List.range (numChannels e)).map (fun ch => toChannelMeta keys e ch)

/-- A textual notebook row: fields by channels plus one trailing overflow
column, with the empty string as the missing marker (source lines 109-112). -/
abbrev TextRec := List (List String)

/-- Cell access in a textual row with the empty marker as default. -/
def textCellAt (r : TextRec) (i j : Nat) : String :=
  (r.getD i []).getD j ""

/-- Conditional write of one textual cell into one channel mapping (source
lines 139-150).  The membership test of line 139 blocks any key already
present, whatever its value.  The fallback of line 145 reads val equals-equals
rec i minus-one in the source: a comparison with no effect, so an empty cell is
always skipped and the overflow column is never consulted. -/
def writeCell (k : String) (cm : ChannelMeta) (val : String) : ChannelMeta :=
  if containsKey cm k then cm
  else if val = "" then cm
  else cm ++ [(k, MetaVal.str val)]

/-- Variant of writeCell following the words of the spec and of the source
comment on line 144 (take value from last column if this one is empty): an
empty channel cell falls back to the overflow value before the skip test.
The shipped code instead performs the comparison val equals-equals rec i
minus-one on line 145, which has no effect, so the code never consults the
overflow column; this definition is only used to state that divergence. -/
def writeCellWithFallback (k : String) (cm : ChannelMeta) (val ov : String) :
    ChannelMeta :=
  if containsKey cm k then cm
  else
    let v := if val = "" then ov else val
    if v = "" then cm else cm ++ [(k, MetaVal.str v)]

/-- Overlay of one textual field row across the channel mappings (source lines
138-150): the overflow column is dropped and each remaining column is written
conditionally into its channel. -/
def overlayField (k : String) (vals : List String) (chans : List ChannelMeta) :
    List ChannelMeta :=
  List.zipWith (fun cm v => writeCell k cm v) chans vals

/-- Overlay of one textual record over the channel mappings of its sweep
(source lines 137-150), folding over the textual field dictionary in order. -/
def overlayRec (textKeys : List String) (chans : List ChannelMeta) (r : TextRec) :
    List ChannelMeta :=
  (mapWithIdx (fun i k => (k, i)) 0 textKeys).foldl
    (fun cs ki => overlayField ki.1 ((r.getD ki.2 []).dropLast) cs)
    chans

/-- Source type of a textual row (source lines 116-124): absent field
dictionary entry is faked as zero, an unparsable cell is none (skip). -/
def textSourceType (estIdx : Option Nat) (r : TextRec) : Option Int :=
  match estIdx with
  | none => some 0
  | some k => pyInt (textCellAt r k 0)

/-- Processing of one textual row (source lines 115-150): non-sweep or
unparsable rows are skipped; a parsed sweep id is looked up in the sweep map,
raising KeyError when absent (source line 135). -/
def applyTextRec (textKeys : List String) (estIdx : Option Nat)
    (entries : List (Int × List ChannelMeta)) (r : TextRec) :
    Except String (List (Int × List ChannelMeta)) :=
  match textSourceType estIdx r with
  | none => Except.ok entries
  | some st =>
    if st ≠ 0 then Except.ok entries
    else
      match pyInt (textCellAt r 0 0) with
      | none => Except.ok entries
      | some sid =>
        if entries.any (fun p => p.1 == sid) then
          Except.ok (entries.map
            (fun p => if p.1 == sid then (p.1, overlayRec textKeys p.2 r) else p))
        else Except.error "KeyError"

/-- Pass 3 of parse_lab_notebook (source lines 115-150): left-to-right fold of
the textual rows, propagating the first error. -/
def textPass (textKeys : List String) (estIdx : Option Nat) :
    List TextRec → List (Int × List ChannelMeta) →
    Except String (List (Int × List ChannelMeta))
  | [] => fun entries => Except.ok entries
  | r :: rest => fun entries =>
    match applyTextRec textKeys estIdx entries r with
    | Except.error e => Except.error e
    | Except.ok es => textPass textKeys estIdx rest es

/-- The decoded tables handed over by the external table provider (the hdf
reading of source lines 27-34 and 108-112 is out of scope per the spec). -/
structure LabNotebook where
  numKeys : List String
  numRows : List NumRec
  textKeys : List String
  textRows : List TextRec

/-- Model of parse_lab_notebook (source lines 6-152): Pass 1 scan, Pass 2
finalization of every accumulator in order, Pass 3 textual overlay. -/
def parse_lab_notebook (nb : LabNotebook) :
    Except String (List (Int × List ChannelMeta)) :=
  match scanRows (nb.numKeys.findIdx? (fun k => k == "EntrySourceType"))
      nb.numRows [] [] with
  | Except.error e => Except.error e
  | Except.ok (acc, _tps) =>
    textPass nb.textKeys (nb.textKeys.findIdx? (fun k => k == "EntrySourceType"))
      nb.textRows
      (acc.map (fun p => (p.1, finalizeEntry nb.numKeys p.2)))

/-- Field of one channel of one sweep in a parse result, for stating concrete
facts about outputs: none when the parse failed, the sweep id is absent, or
the key is not in the channel mapping. -/
def channelField (res : Except String (List (Int × List ChannelMeta)))
    (sid : Int) (ch : Nat) (k : String) : Option MetaVal :=
  match res with
  | Except.error _ => none
  | Except.ok es =>
    match es.find? (fun p => p.1 == sid) with
    | none => none
    | some p => lookupMeta (p.2.getD ch []) k

/-! ### Helper lemmas about list indexing -/

/-- Reading inside a map at an in-range index. -/
theorem getD_map_of_lt {α β : Type} (f : α → β) (l : List α) (i : Nat)
    (d : β) (d0 : α) (h : i < l.length) :
    (l.map f).getD i d = f (l.getD i d0) := by
  induction l generalizing i with
  | nil => simp at h
  | cons a as ih =>
    cases i with
    | zero => simp
    | succ m =>
      simp only [List.map_cons, List.getD_cons_succ]
      exact ih m (by simpa using h)

/-- Reading inside a zipWith at an index in range on both sides. -/
theorem getD_zipWith_of_lt {α β γ : Type} (f : α → β → γ) (l1 : List α)
    (l2 : List β) (i : Nat) (d1 : α) (d2 : β) (d3 : γ)
    (h1 : i < l1.length) (h2 : i < l2.length) :
    (List.zipWith f l1 l2).getD i d3 = f (l1.getD i d1) (l2.getD i d2) := by
  induction l1 generalizing l2 i with
  | nil => simp at h1
  | cons a as ih =>
    cases l2 with
    | nil => simp at h2
    | cons b bs =>
      cases i with
      | zero => simp
      | succ m =>
        simp only [List.zipWith_cons_cons, List.getD_cons_succ]
        exact ih bs m (by simpa using h1) (by simpa using h2)

/-- mapWithIdx preserves length. -/
theorem length_mapWithIdx {α β : Type} (f : Nat → α → β) (n : Nat) (l : List α) :
    (mapWithIdx f n l).length = l.length := by
  induction l generalizing n with
  | nil => rfl
  | cons a as ih => simp [mapWithIdx, ih]

/-- Reading inside a mapWithIdx at an in-range index. -/
theorem getD_mapWithIdx_of_lt {α β : Type} (f : Nat → α → β) (n : Nat)
    (l : List α) (i : Nat) (d : β) (d0 : α) (h : i < l.length) :
    (mapWithIdx f n l).getD i d = f (n + i) (l.getD i d0) := by
  induction l generalizing n i with
  | nil => simp at h
  | cons a as ih =>
    cases i with
    | zero => simp [mapWithIdx]
    | succ m =>
      have hnm : n + (m + 1) = (n + 1) + m := by omega
      simp only [mapWithIdx, List.getD_cons_succ, hnm]
      exact ih (n + 1) m (by simpa using h)

/-- A missing-marker default read past the end of a list. -/
theorem getD_of_len_le {α : Type} (l : List α) (i : Nat) (d : α)
    (h : l.length ≤ i) : l.getD i d = d := by
  induction l generalizing i with
  | nil => simp
  | cons a as ih =>
    cases i with
    | zero => simp at h
    | succ m => simpa using ih m (by simpa using h)

/-- Cell-wise description of the grid merge policy. -/
theorem cellAt_mergeRec (r1 r2 : NumRec) (i j : Nat)
    (h1 : i < r1.length) (h2 : i < r2.length)
    (hj1 : j < (r1.getD i []).length) (hj2 : j < (r2.getD i []).length) :
    cellAt (mergeRec r1 r2) i j = mergeCell (cellAt r1 i j) (cellAt r2 i j) := by
  unfold cellAt mergeRec
  rw [getD_zipWith_of_lt (List.zipWith mergeCell) r1 r2 i [] [] [] h1 h2,
    getD_zipWith_of_lt mergeCell _ _ j none none none hj1 hj2]

/-! ### Claim C1 -/

/-- C1 (counterexample): on a test-pulse pair whose first row has G equal 3
non-missing and second row G equal 7, the merged test-pulse record produced by
the Pass 1 scan carries G equal 7, not 3 — the second row overwrote a present
value, contradicting the claim. -/
theorem c1_counterexample :
    scanRows (some 1)
        [[[some 0, none], [some 1, none], [some 3, none]],
         [[none, none], [none, none], [some 7, none]]] [] [] =
      Except.ok ([], [[[some 0, none], [some 1, none], [some 7, none]]]) ∧
    cellAt [[some 0, none], [some 1, none], [some 7, none]] 2 0 = some 7 ∧
    (some (7 : ℚ) : Cell) ≠ some 3 := by decide

/-- C1 (amended): in the two-row merge of a test-pulse record, the second row
wins wherever it is non-missing — overwriting present values of the first
row — and the first row survives only where the second row is missing; with
G equal 3 in row one and G equal 7 in row two the merged record has G equal 7. -/
theorem c1_amended (est : Option Nat) (r1 r2 : NumRec) (i j : Nat)
    (h1 : i < r1.length) (h2 : i < r2.length)
    (hj1 : j < (r1.getD i []).length) (hj2 : j < (r2.getD i []).length) :
    (classify est r1 = RowClass.tp →
      scanRows est [r1, r2] [] [] = Except.ok ([], [mergeRec r1 r2])) ∧
    (cellAt r2 i j = none → cellAt (mergeRec r1 r2) i j = cellAt r1 i j) ∧
    (∀ v, cellAt r2 i j = some v → cellAt (mergeRec r1 r2) i j = some v) := by
  refine ⟨?_, ?_, ?_⟩
  · intro h
    simp [scanRows, h]
  · intro h
    rw [cellAt_mergeRec r1 r2 i j h1 h2 hj1 hj2, h]
    rfl
  · intro v h
    rw [cellAt_mergeRec r1 r2 i j h1 h2 hj1 hj2, h]
    rfl

/-- C1 (witness): the amended statement applied to a one-cell test-pulse pair
with values 3 and 7, yielding the merged value 7. -/
theorem c1_witness :
    cellAt (mergeRec [[(some 3 : Cell)]] [[(some 7 : Cell)]]) 0 0 = some 7 :=
  (c1_amended (some 0) [[(some 3 : Cell)]] [[(some 7 : Cell)]] 0 0
    (by decide) (by decide) (by decide) (by decide)).2.2 7 (by decide)

/-! ### Claim C5 -/

/-- C5 (counterexample): a numeric row whose EntrySourceType is absent from the
field dictionary, or present but NaN, is dropped even though its sweep-index
cell holds the finite value 3 — the scan yields no sweep entries, and the full
parse returns an empty notebook, contradicting the claim that such a row is
accumulated as a sweep record. -/
theorem c5_counterexample :
    scanRows none [[[(some 3 : Cell)]]] [] [] = Except.ok ([], []) ∧
    parse_lab_notebook
      { numKeys := ["SweepNum"]
        numRows := [[some 3 :: List.replicate 8 none]]
        textKeys := []
        textRows := [] } = Except.ok [] ∧
    scanRows (some 1)
      [[(some 3 : Cell) :: List.replicate 8 none, List.replicate 9 none]] [] [] =
      Except.ok ([], []) := by decide

/-- C5 (amended): a numeric row whose EntrySourceType discriminator is absent
(no such field) or NaN is neither classified as a sweep record nor as a
test-pulse record: the scan skips it entirely, leaving both accumulators
unchanged, whatever its sweep-index value — the legacy fallback of source
lines 54-65 is commented out. -/
theorem c5_amended (est : Option Nat) (r : NumRec) (rest : List NumRec)
    (acc : SweepAcc) (tps : List NumRec)
    (h : est.bind (fun k => cellAt r k 0) = none) :
    scanRows est (r :: rest) acc tps = scanRows est rest acc tps := by
  have hc : classify est r = RowClass.skip := by
    cases est with
    | none => rfl
    | some k =>
      have hk : cellAt r k 0 = none := by simpa using h
      simp [classify, hk]
  simp [scanRows, hc]

/-- C5 (witness): the amended statement applied to a single row with a finite
sweep index and no discriminator field. -/
theorem c5_witness :
    scanRows none [[[(some 3 : Cell)]]] [] [] = scanRows none [] [] [] :=
  c5_amended none [[(some 3 : Cell)]] [] [] [] (by decide)

/-! ### Claim C7 -/

/-- C7: two sweep-record rows with the same sweep index merge into the
accumulator with the last-non-missing-wins policy: processing both orders
succeeds, a present cell is never regressed to missing by a missing later
cell, a cell missing in one row takes the other row value in either order,
and when both rows are non-missing the later-processed row wins. -/
theorem c7_theorem (est : Option Nat) (rA rB : NumRec) (n : ℚ) (i j : Nat)
    (hA : classify est rA = RowClass.sweep) (hB : classify est rB = RowClass.sweep)
    (hidA : cellAt rA 0 0 = some n) (hidB : cellAt rB 0 0 = some n)
    (h1 : i < rA.length) (h2 : i < rB.length)
    (hj1 : j < (rA.getD i []).length) (hj2 : j < (rB.getD i []).length) :
    (scanRows est [rA, rB] [] [] =
        Except.ok ([(ratTrunc n, mergeRec rA rB)], []) ∧
      scanRows est [rB, rA] [] [] =
        Except.ok ([(ratTrunc n, mergeRec rB rA)], [])) ∧
    (∀ v, cellAt rA i j = some v → cellAt rB i j = none →
      cellAt (mergeRec rA rB) i j = some v) ∧
    (cellAt rA i j = none → ∀ w, cellAt rB i j = some w →
      cellAt (mergeRec rA rB) i j = some w ∧
        cellAt (mergeRec rB rA) i j = some w) ∧
    (∀ v w, cellAt rA i j = some v → cellAt rB i j = some w →
      cellAt (mergeRec rA rB) i j = some w) := by
  have hAB := cellAt_mergeRec rA rB i j h1 h2 hj1 hj2
  have hBA := cellAt_mergeRec rB rA i j h2 h1 hj2 hj1
  refine ⟨⟨?_, ?_⟩, ?_, ?_, ?_⟩
  · simp [scanRows, hA, hB, hidA, hidB, updateAssoc]
  · simp [scanRows, hA, hB, hidA, hidB, updateAssoc]
  · intro v hv hn
    rw [hAB, hv, hn]
    rfl
  · intro hn w hw
    constructor
    · rw [hAB, hn, hw]
      rfl
    · rw [hBA, hn, hw]
      rfl
  · intro v w hv hw
    rw [hAB, hw]
    rfl

/-- C7 (witness): the statement applied to two one-sweep rows where row A has
the third field missing and row B carries 5 there: both orders merge to 5. -/
theorem c7_witness :
    cellAt (mergeRec [[(some 0 : Cell)], [some 0], [none]]
        [[(some 0 : Cell)], [some 0], [some 5]]) 2 0 = some 5 ∧
    cellAt (mergeRec [[(some 0 : Cell)], [some 0], [some 5]]
        [[(some 0 : Cell)], [some 0], [none]]) 2 0 = some 5 :=
  (c7_theorem (some 1) [[(some 0 : Cell)], [some 0], [none]]
    [[(some 0 : Cell)], [some 0], [some 5]] 0 2 0
    (by decide) (by decide) (by decide) (by decide)
    (by decide) (by decide) (by decide) (by decide)).2.2.1 (by decide) 5 (by decide)

/-! ### Claim C8 -/

/-- Reading inside a range list at an in-range index. -/
theorem getD_range_of_lt (n i : Nat) (h : i < n) : (List.range n).getD i 0 = i := by
  rw [List.getD_eq_getElem?_getD, List.getElem?_range h]
  rfl

/-- C8: a field whose designated global column (index 8) holds a non-missing
value g has g broadcast into every channel column by finalization,
overwriting any per-channel value, and every finalized channel mapping
reports that field with value g. -/
theorem c8_theorem (keys : List String) (entry : NumRec) (f ch : Nat) (g : ℚ)
    (hg : (entry.getD f []).getD 8 none = some g)
    (hch : ch < (entry.getD f []).length)
    (hk : f < keys.length)
    (hch2 : ch < numChannels (finalizeGrid keys entry)) :
    cellAt (finalizeGrid keys entry) f ch = some g ∧
    ((finalizeEntry keys entry).getD ch []).getD f ("", MetaVal.null) =
      (keys.getD f "", MetaVal.num g) := by
  have hf : f < entry.length := by
    by_contra hnot
    rw [getD_of_len_le entry f [] (Nat.le_of_not_lt hnot)] at hg
    simp at hg
  have h8 : 8 < (entry.getD f []).length := by
    by_contra hnot
    rw [getD_of_len_le _ 8 none (Nat.le_of_not_lt hnot)] at hg
    simp at hg
  have h0 : 0 < (entry.getD f []).length := Nat.lt_of_le_of_lt (Nat.zero_le 8) h8
  have hconstget : ∀ jj, jj < (entry.getD f []).length →
      ((entry.getD f []).map (fun _ => (some g : Cell))).getD jj none = some g := by
    intro jj hjj
    rw [getD_map_of_lt _ _ jj none none hjj]
  have hbf : broadcastFirst ((entry.getD f []).map (fun _ => (some g : Cell))) =
      (entry.getD f []).map (fun _ => some g) := by
    unfold broadcastFirst
    rw [hconstget 0 h0, List.map_map]
    rfl
  have hglen : f < (globalStep entry).length := by
    simpa [globalStep] using hf
  have hgrow : (globalStep entry).getD f [] =
      (entry.getD f []).map (fun _ => some g) := by
    unfold globalStep
    rw [getD_map_of_lt _ entry f [] [] hf, hg]
  have hhlen : f < (headerStep (globalStep entry)).length := by
    simpa [headerStep, length_mapWithIdx] using hglen
  have hhrow : (headerStep (globalStep entry)).getD f [] =
      (entry.getD f []).map (fun _ => some g) := by
    unfold headerStep
    rw [getD_mapWithIdx_of_lt _ 0 _ f [] [] hglen, hgrow]
    simp only [Nat.zero_add]
    split
    · exact hbf
    · rfl
  have hfinalrow : (finalizeGrid keys entry).getD f [] =
      (entry.getD f []).map (fun _ => some g) := by
    unfold finalizeGrid asyncStep
    rw [getD_mapWithIdx_of_lt _ 0 _ f [] [] hhlen, hhrow]
    simp only [Nat.zero_add]
    split
    · exact hbf
    · rfl
  have hcell : cellAt (finalizeGrid keys entry) f ch = some g := by
    unfold cellAt
    rw [hfinalrow, hconstget ch hch]
  refine ⟨hcell, ?_⟩
  have hment : (finalizeEntry keys entry).getD ch [] =
      toChannelMeta keys (finalizeGrid keys entry) ch := by
    unfold finalizeEntry
    rw [getD_map_of_lt _ (List.range (numChannels (finalizeGrid keys entry))) ch [] 0
      (by simpa [List.length_range] using hch2)]
    rw [getD_range_of_lt _ _ hch2]
  rw [hment]
  unfold toChannelMeta
  rw [getD_mapWithIdx_of_lt _ 0 keys f ("", MetaVal.null) "" hk]
  simp only [Nat.zero_add]
  rw [hcell]

/-- C8 (witness): a five-field record with field H missing on most channels,
value 10 on channel 0 and the global value 42 in column 8: after finalization
channel 0 reports H equal 42. -/
theorem c8_witness :
    cellAt
      (finalizeGrid ["k0", "k1", "k2", "k3", "H"]
        [List.replicate 9 (none : Cell), List.replicate 9 none,
         List.replicate 9 none, List.replicate 9 none,
         some 10 :: (List.replicate 7 none ++ [some 42])]) 4 0 = some 42 ∧
    ((finalizeEntry ["k0", "k1", "k2", "k3", "H"]
        [List.replicate 9 (none : Cell), List.replicate 9 none,
         List.replicate 9 none, List.replicate 9 none,
         some 10 :: (List.replicate 7 none ++ [some 42])]).getD 0 []).getD 4
      ("", MetaVal.null) = ("H", MetaVal.num 42) :=
  c8_theorem _ _ 4 0 42 (by decide) (by decide) (by decide) (by decide)

/-! ### Claim C2 -/

/-- A successful lookup implies key membership. -/
theorem containsKey_of_lookup (cm : ChannelMeta) (k : String) (v : MetaVal)
    (h : lookupMeta cm k = some v) : containsKey cm k = true := by
  induction cm with
  | nil => simp [lookupMeta] at h
  | cons p rest ih =>
    by_cases hp : p.1 == k
    · simp [containsKey, hp]
    · simp only [lookupMeta, List.find?_cons, hp] at h
      simp only [containsKey, List.any_cons, hp, Bool.false_or]
      exact ih h

/-- A failed lookup implies the key is not a member. -/
theorem containsKey_of_lookup_none (cm : ChannelMeta) (k : String)
    (h : lookupMeta cm k = none) : containsKey cm k = false := by
  induction cm with
  | nil => rfl
  | cons p rest ih =>
    by_cases hp : p.1 == k
    · simp [lookupMeta, List.find?_cons, hp] at h
    · simp only [lookupMeta, List.find?_cons, hp] at h
      simp only [containsKey, List.any_cons, hp, Bool.false_or]
      exact ih h

/-- Appending a binding for a fresh key makes it the lookup result. -/
theorem lookupMeta_append (cm : ChannelMeta) (k : String) (x : MetaVal)
    (h : lookupMeta cm k = none) : lookupMeta (cm ++ [(k, x)]) k = some x := by
  induction cm with
  | nil => simp [lookupMeta]
  | cons p rest ih =>
    by_cases hp : p.1 == k
    · simp [lookupMeta, List.find?_cons, hp] at h
    · simp only [lookupMeta, List.find?_cons, hp] at h ⊢
      simp only [List.cons_append, List.find?_cons, hp]
      exact ih h

/-- C2 (counterexample): with the textual field name Label also a numeric field
name, left NaN by the numeric pass, the finalized mapping holds Label with the
explicit absence value; the textual overlay supplies Label = x for that
channel, yet the parse output still reports the absence value — the textual
value is not written even though numeric finalization left the field absent,
contradicting the claim. -/
theorem c2_counterexample :
    channelField
      (parse_lab_notebook
        { numKeys := ["SweepNum", "EntrySourceType", "Label"]
          numRows := [[some 0 :: List.replicate 8 none,
                       some 0 :: List.replicate 8 none,
                       List.replicate 9 none]]
          textKeys := ["SweepNum", "Label"]
          textRows := [[("0" :: List.replicate 8 ""),
                        (List.replicate 8 "x" ++ [""])]] })
      0 0 "Label" = some MetaVal.null ∧
    some MetaVal.null ≠ some (MetaVal.str "x") := by decide

/-- C2 (amended): the overlay decides by key membership, not value absence: a
field name already bound in the channel mapping is never overwritten by the
textual value, even when its binding is the explicit absence value (which is
how numeric finalization records NaN for every numeric key); the textual
value is written only when the field name is absent from the mapping
altogether and the cell is nonempty. -/
theorem c2_amended (k : String) (chans : List ChannelMeta) (vals : List String)
    (j : Nat) (hj1 : j < chans.length) (hj2 : j < vals.length) :
    (∀ v, lookupMeta (chans.getD j []) k = some v →
      lookupMeta ((overlayField k vals chans).getD j []) k = some v) ∧
    (lookupMeta (chans.getD j []) k = none → vals.getD j "" ≠ "" →
      lookupMeta ((overlayField k vals chans).getD j []) k =
        some (MetaVal.str (vals.getD j ""))) := by
  have hget : (overlayField k vals chans).getD j [] =
      writeCell k (chans.getD j []) (vals.getD j "") :=
    getD_zipWith_of_lt _ chans vals j [] "" [] hj1 hj2
  constructor
  · intro v hv
    rw [hget]
    unfold writeCell
    rw [if_pos (containsKey_of_lookup _ _ _ hv)]
    exact hv
  · intro hnone hval
    rw [hget]
    unfold writeCell
    have hck : containsKey (chans.getD j []) k = false :=
      containsKey_of_lookup_none _ _ hnone
    rw [if_neg (by rw [hck]; exact Bool.false_ne_true), if_neg hval]
    exact lookupMeta_append _ _ _ hnone

/-- C2 (witness): a channel mapping without the key Remarks and a nonempty
textual cell: the overlay writes the textual value. -/
theorem c2_witness :
    lookupMeta ((overlayField "Remarks" ["x"] [[("A", MetaVal.null)]]).getD 0 [])
      "Remarks" = some (MetaVal.str "x") :=
  (c2_amended "Remarks" [[("A", MetaVal.null)]] ["x"] 0
    (by decide) (by decide)).2 (by decide) (by decide)

/-! ### Claim C3 -/

/-- C3 (counterexample): a textual row whose sweep id parses to 5, an id absent
from the numeric output, makes the whole parse raise KeyError instead of
being skipped silently, contradicting the claim. -/
theorem c3_counterexample :
    parse_lab_notebook
      { numKeys := ["SweepNum", "EntrySourceType"]
        numRows := [[some 0 :: List.replicate 8 none,
                     some 0 :: List.replicate 8 none]]
        textKeys := ["SweepNum"]
        textRows := [[("5" :: List.replicate 8 "")]] } =
    Except.error "KeyError" := by decide

/-- C3 (amended): a textual sweep-typed row whose sweep id cell does not parse
as an integer is skipped silently, leaving every sweep untouched; but a row
whose id parses to an integer that is not a key of the numeric output raises
KeyError, which propagates out of the parse instead of skipping the row. -/
theorem c3_amended (tkeys : List String) (est : Option Nat)
    (entries : List (Int × List ChannelMeta)) (r : TextRec) (sid : Int) :
    (textSourceType est r = some 0 → pyInt (textCellAt r 0 0) = none →
      applyTextRec tkeys est entries r = Except.ok entries) ∧
    (textSourceType est r = some 0 → pyInt (textCellAt r 0 0) = some sid →
      entries.any (fun p => p.1 == sid) = false →
      applyTextRec tkeys est entries r = Except.error "KeyError") := by
  constructor
  · intro h1 h2
    simp [applyTextRec, h1, h2]
  · intro h1 h2 h3
    simp [applyTextRec, h1, h2, h3]

/-- C3 (witness): the amended statement applied to a row with the unparsable
id abc (skipped, state returned unchanged) and to a row with the parsable but
unknown id 5 (KeyError). -/
theorem c3_witness :
    applyTextRec [] none [] [["abc"]] = Except.ok [] ∧
    applyTextRec [] none [] [["5"]] = Except.error "KeyError" :=
  ⟨(c3_amended [] none [] [["abc"]] 0).1 (by decide) (by decide),
   (c3_amended [] none [] [["5"]] 5).2 (by decide) (by decide) (by decide)⟩

/-! ### Claim C4 -/

/-- C4 (code bug): the source comment on line 144 says take value from last
column if this one is empty, but line 145 reads val equals-equals rec i
minus-one — a comparison, not an assignment — so the overflow column is never
consulted.  At a textual row whose Remarks channel cell is empty while the
overflow column holds X, the parse leaves Remarks entirely absent from the
channel mapping; the comment-described fallback (writeCellWithFallback) would
have written X. -/
theorem c4_bug_eval :
    channelField
      (parse_lab_notebook
        { numKeys := ["SweepNum", "EntrySourceType"]
          numRows := [[some 0 :: List.replicate 8 none,
                       some 0 :: List.replicate 8 none]]
          textKeys := ["SweepNum", "Remarks"]
          textRows := [[("0" :: List.replicate 8 ""),
                        (List.replicate 8 "" ++ ["X"])]] })
      0 0 "Remarks" = none ∧
    writeCell "Remarks" [] "" = [] ∧
    writeCellWithFallback "Remarks" [] "" "X" = [("Remarks", MetaVal.str "X")] := by
  decide

/-! ### Claim C6 -/

/-- C6 (counterexample): on the quoted note with repeat count 3 the decoder
does return version 2, but the single epoch it returns also contains the
Sweep key with value 3 — the Sweep = 3 fragment itself contains an equals
sign and is folded into the mapping — so the epoch is not equal (as a
mapping) to one holding only A and B. -/
theorem c6_counterexample :
    parse_stim_wave_note
      [("Set Sweep Count", MetaVal.num 3),
       ("Stim Wave Note",
        MetaVal.str "Version = 2;\nSweep = 3;A = 1;B = 2\nSweep = 4;A = 9")] =
      Except.ok (2, [[("Sweep", "3"), ("A", "1"), ("B", "2")]]) ∧
    ([("Sweep", "3"), ("A", "1"), ("B", "2")] : EpochMap).any
      (fun p => p.1 == "Sweep") = true ∧
    ([("A", "1"), ("B", "2")] : EpochMap).any (fun p => p.1 == "Sweep") = false := by
  decide

/-- C6 (amended): for the quoted note text and repeat count 3,
parse_stim_wave_note returns version 2 and exactly one epoch, equal to the
mapping with Sweep bound to 3, A bound to 1 and B bound to 2 — the selected
line contributes its Sweep fragment to the mapping along with A and B. -/
theorem c6_theorem :
    parse_stim_wave_note
      [("Set Sweep Count", MetaVal.num 3),
       ("Stim Wave Note",
        MetaVal.str "Version = 2;\nSweep = 3;A = 1;B = 2\nSweep = 4;A = 9")] =
      Except.ok (2, [[("Sweep", "3"), ("A", "1"), ("B", "2")]]) := by
  decide

/-! ### Claims C9 and C10: lemmas on the epoch machinery -/

/-- A dict build over length-two fragments only always succeeds. -/
theorem pyDictAux_ok_of_all (ps : List (List String)) (acc : EpochMap)
    (h : ∀ p ∈ ps, p.length = 2) : (pyDictAux acc ps).isOk = true := by
  induction ps generalizing acc with
  | nil => rfl
  | cons p rest ih =>
    obtain ⟨k, v, rfl⟩ := List.length_eq_two.mp (h p (List.mem_cons_self p rest))
    show (pyDictAux (dictInsert acc k v) rest).isOk = true
    exact ih _ (fun q hq => h q (List.mem_cons_of_mem _ hq))

/-- A dict build containing a fragment that is not a pair fails. -/
theorem pyDictAux_error_of_bad (ps : List (List String)) (acc : EpochMap)
    (h : ∃ p ∈ ps, p.length ≠ 2) : (pyDictAux acc ps).isOk = false := by
  induction ps generalizing acc with
  | nil => simp at h
  | cons p rest ih =>
    by_cases hp : p.length = 2
    · obtain ⟨k, v, rfl⟩ := List.length_eq_two.mp hp
      show (pyDictAux (dictInsert acc k v) rest).isOk = false
      obtain ⟨q, hq, hlen⟩ := h
      rcases List.mem_cons.mp hq with heq | hmem
      · subst heq
        simp at hlen
      · exact ih _ ⟨q, hmem, hlen⟩
    · match p, hp with
      | [], _ => rfl
      | [x], _ => rfl
      | [x, y], hbad => exact absurd rfl hbad
      | x :: y :: z :: t, _ => rfl

/-- A failing line makes the whole epoch fold fail, from any accumulator. -/
theorem epochsFold_error (ls : List String) (acc : List EpochMap) (line : String)
    (hline : line ∈ ls) (hbad : (buildEpoch line).isOk = false) :
    (epochsFold ls acc).isOk = false := by
  induction ls generalizing acc with
  | nil => simp at hline
  | cons l rest ih =>
    rw [epochsFold]
    cases hb : buildEpoch l with
    | error e => rfl
    | ok ep =>
      rcases List.mem_cons.mp hline with heq | hmem
      · subst heq
        rw [hb] at hbad
        simp [Except.isOk, Except.toBool] at hbad
      · exact ih (acc ++ [ep]) hmem

/-! ### Claim C9 -/

/-- C9: when no line of the wave note begins with the Version marker, the
version computation succeeds with the value 0 (and any successful decode
reports version 0); when a Version line exists but the token after the
space-equals-space separator is not parsable as a number, the decoder fails
with an error instead of defaulting. -/
theorem c9_theorem (sc : Int) (note : String) (vline a x : String)
    (vrest more : List String) :
    (versionLinesOf note = [] → parseVersion note = Except.ok 0) ∧
    (versionLinesOf note = [] →
      ∀ v eps, stimWaveNoteFromParts sc note = Except.ok (v, eps) → v = 0) ∧
    (versionLinesOf note = vline :: vrest →
      pySplitOn " = " (pyRstripSemi vline) = a :: x :: more →
      pyFloat x = none →
      (stimWaveNoteFromParts sc note).isOk = false) := by
  refine ⟨?_, ?_, ?_⟩
  · intro hv
    simp [parseVersion, hv]
  · intro hv v eps hok
    have h0 : parseVersion note = Except.ok 0 := by simp [parseVersion, hv]
    unfold stimWaveNoteFromParts at hok
    cases hep : epochsOf sc note with
    | error e => simp [h0, hep] at hok
    | ok eps2 =>
      simp [h0, hep] at hok
      exact hok.1.symm
  · intro hv hsplit hfl
    have hver : parseVersion note = Except.error "ValueError" := by
      simp [parseVersion, hv, hsplit, hfl]
    unfold stimWaveNoteFromParts
    rw [hver]
    rfl

/-- C9 (witness): a note without a Version line decodes with version 0, and a
note whose Version line carries the unparsable token abc makes the decoder
fail. -/
theorem c9_witness :
    parseVersion "Sweep = 1;X = 2" = Except.ok 0 ∧
    (stimWaveNoteFromParts 3 "Version = abc;\nSweep = 3;").isOk = false :=
  ⟨(c9_theorem 3 "Sweep = 1;X = 2" "" "" "" [] []).1 (by decide),
   (c9_theorem 3 "Version = abc;\nSweep = 3;" "Version = abc;" "Version" "abc"
     [] []).2.2 (by decide) (by decide) (by decide)⟩

/-! ### Claim C10 -/

/-- C10: in the epoch build for a selected line, fragments without any equals
sign never cause a failure — a line whose equals-carrying fragments all split
on space-equals-space into exactly two parts builds its epoch successfully —
while a fragment that carries an equals sign but does not split into exactly
two parts makes the whole decode fail rather than being ignored or parsed. -/
theorem c10_theorem (sc : Int) (note line : String)
    (hline : line ∈ epochLines sc note) :
    ((∀ q ∈ lineFragments line, pyContainsChar q '=' = true →
        (pySplitOn " = " q).length = 2) → (buildEpoch line).isOk = true) ∧
    ((∃ q ∈ lineFragments line, pyContainsChar q '=' = true ∧
        (pySplitOn " = " q).length ≠ 2) →
      (stimWaveNoteFromParts sc note).isOk = false) := by
  constructor
  · intro h
    unfold buildEpoch pyDict
    apply pyDictAux_ok_of_all
    intro p hp
    obtain ⟨q, hq, rfl⟩ := List.mem_map.mp hp
    have hq2 := List.mem_filter.mp hq
    exact h q hq2.1 hq2.2
  · intro hbad
    obtain ⟨q, hq, heq, hlen⟩ := hbad
    have hqf : q ∈ (lineFragments line).filter (fun p => pyContainsChar p '=') :=
      List.mem_filter.mpr ⟨hq, heq⟩
    have hbuild : (buildEpoch line).isOk = false := by
      unfold buildEpoch pyDict
      exact pyDictAux_error_of_bad _ _
        ⟨pySplitOn " = " q, List.mem_map_of_mem _ hqf, hlen⟩
    have hep : (epochsOf sc note).isOk = false :=
      epochsFold_error _ [] line hline hbuild
    unfold stimWaveNoteFromParts
    cases hv : parseVersion note with
    | error e => rfl
    | ok ver =>
      cases hepc : epochsOf sc note with
      | error e => rfl
      | ok eps =>
        rw [hepc] at hep
        simp [Except.isOk, Except.toBool] at hep

/-- C10 (witness): the fragment A equals 1 written without spaces carries an
equals sign but does not split on space-equals-space, so the decode of a note
containing it in a selected line fails. -/
theorem c10_witness :
    (stimWaveNoteFromParts 3 "Sweep = 3;A=1").isOk = false :=
  (c10_theorem 3 "Sweep = 3;A=1" "Sweep = 3;A=1" (by decide)).2
    ⟨"A=1", by decide, by decide, by decide⟩
